import Mathlib

/-!
Shallow embedding of the krabs GUID parser (src/krabs/krabs/guid.hpp) and of
the container-id extraction in
src/Microsoft.O365.Security.Native.ETW/EventRecordMetadata.hpp, together with
theorems settling the specified properties.

Characters and bytes are modelled as `Nat` (ASCII codes / byte values); a C
pointer into a buffer is modelled as a base list plus an offset, and an
out-of-bounds read yields the default 0 (the C code never performs one on the
inputs the claims range over).  Output reference parameters are modelled by
returning a pair (return value, parameter value after the call).
-/

deriving instance DecidableEq for Except

namespace Krabs

/-- The Windows GUID struct as used by the parser: Data1 is a 32-bit unsigned
long, Data2 and Data3 are 16-bit unsigned shorts, Data4 is an array of 8
bytes. -/
structure GUID where
  Data1 : Nat
  Data2 : Nat
  Data3 : Nat
  Data4 : List Nat
deriving DecidableEq, Repr

/-- The three distinct `std::runtime_error` throws of `guid_parser::parse_guid`. -/
inductive ParseError where
  /-- Thrown as "Input data has incorrect length. Expected 36, got (got)". -/
  | lengthError (got : Nat)
  /-- Thrown as "Missing a hyphen where one was expected." (a format error). -/
  | formatHyphen
  /-- Thrown as "GUID string contains non-hex digits where hex digits are
  expected." (a format error). -/
  | formatNonHex
deriving DecidableEq, Repr

/-- Number of characters in the UUID's 8-4-4-4-12 string format. -/
def UUID_STRING_LENGTH : Nat := 36

/-- The character code of the hyphen character. -/
def DELIMITER : Nat := 45

def STR_POSITION_DATA1 : Nat := 0

def STR_POSITION_DATA2 : Nat := 8 + 1

def STR_POSITION_DATA3 : Nat := STR_POSITION_DATA2 + 4 + 1

def STR_POSITION_DATA4_PART1 : Nat := STR_POSITION_DATA3 + 4 + 1

def STR_POSITION_DATA4_PART2 : Nat := STR_POSITION_DATA4_PART1 + 4 + 1

/-- The value of one hex character, factoring the two symmetric
if/else-if/else chains of `hex_octet_to_byte` (guid.hpp lines 180-204);
`c & 0x0F` is `c % 16`.  Accepts '0'-'9' (48-57), 'A'-'F' (65-70),
'a'-'f' (97-102); anything else takes the `return false` path, here `none`. -/
def hexDigitValue (c : Nat) : Option Nat :=
  if 48 ≤ c ∧ c ≤ 57 then some (c % 16)
  else if (65 ≤ c ∧ c ≤ 70) ∨ (97 ≤ c ∧ c ≤ 102) then some (c % 16 + 9)
  else none

/-- Core of `guid_parser::hex_octet_to_byte`: reads exactly the characters at
`pos` (msd, `str_input[0]`) and `pos + 1` (lsd, `str_input[1]`) and combines
their values as `(msd_value << 4) | lsd_value`. -/
def hexOctet (str_input : List Nat) (pos : Nat) : Option Nat :=
  match hexDigitValue (str_input.getD pos 0),
        hexDigitValue (str_input.getD (pos + 1) 0) with
  | some m, some l => some ((m <<< 4) ||| l)
  | _, _ => none

/-- guid_parser::hex_octet_to_byte (guid.hpp lines 167-209).  Returns the pair
(return value, `byte_output` after the call): the source assigns `byte_output`
only at line 207, after both characters checked out; both early
`return false` paths leave it untouched. -/
def hex_octet_to_byte (str_input : List Nat) (pos : Nat) (byte_output : Nat) :
    Bool × Nat :=
  match hexOctet str_input pos with
  | some v => (true, v)
  | none => (false, byte_output)

/-- The loop of `hex_string_to_number` (guid.hpp lines 218-226): `value` is the
local accumulator, the counter counts the remaining iterations and `pos`
advances by 2 per octet, modelling `str_input + i * 2`.  The loop-local `byte`
variable is exactly the octet value on the path where it is read, so it is not
threaded separately. -/
def hexStringToNumberLoop (str : List Nat) : Nat → Nat → Nat → Option Nat
  | _, value, 0 => some value
  | pos, value, n + 1 =>
    match hexOctet str pos with
    | none => none
    | some byte => hexStringToNumberLoop str (pos + 2) ((value <<< 8) ||| byte) n

/-- guid_parser::hex_string_to_number<T> (guid.hpp lines 211-230) with
`byte_count = sizeof(T)`.  Returns the pair (return value, `int_output` after
the call): `int_output` is assigned only on the success path (line 228).  Every
instantiation used is unsigned with the loop consuming exactly sizeof(T)
octets, so the `T` arithmetic never wraps and plain `Nat` arithmetic is
exact. -/
def hex_string_to_number (str_input : List Nat) (pos : Nat) (byte_count : Nat)
    (int_output : Nat) : Bool × Nat :=
  match hexStringToNumberLoop str_input pos 0 byte_count with
  | some value => (true, value)
  | none => (false, int_output)

/-- The loop of `hex_string_to_bytes` (guid.hpp lines 234-240): writes
`byte_output[outPos + i]` for each octet as it is decoded; on a failing octet
it returns false immediately, leaving the buffer holding the already-written
prefix. -/
def hexStringToBytesLoop (str : List Nat) :
    Nat → List Nat → Nat → Nat → Bool × List Nat
  | _, byte_output, _, 0 => (true, byte_output)
  | pos, byte_output, outPos, n + 1 =>
    match hexOctet str pos with
    | none => (false, byte_output)
    | some b => hexStringToBytesLoop str (pos + 2) (byte_output.set outPos b) (outPos + 1) n

/-- guid_parser::hex_string_to_bytes (guid.hpp lines 232-243).  The
`byte_output` pointer is modelled as a list plus the starting offset
`outPos`. -/
def hex_string_to_bytes (str_input : List Nat) (pos : Nat)
    (byte_output : List Nat) (outPos : Nat) (byte_count : Nat) :
    Bool × List Nat :=
  hexStringToBytesLoop str_input pos byte_output outPos byte_count

/-- guid_parser::parse_guid (guid.hpp lines 245-282).  `GUID guid = { 0 }`
supplies the initial 0 values of the output parameters; `&guid.Data4[0]` and
`&guid.Data4[2]` are offsets 0 and 2 into the 8-byte Data4 buffer.  The C
`&&` chain short-circuits, but a skipped call could only have written fields
of a GUID that the throw then discards, so evaluating all five calls is
observationally identical. -/
def parse_guid (str : List Nat) (length : Nat) : Except ParseError GUID :=
  if length ≠ UUID_STRING_LENGTH then
    .error (.lengthError length)
  else if str.getD (STR_POSITION_DATA2 - 1) 0 ≠ DELIMITER ∨
          str.getD (STR_POSITION_DATA3 - 1) 0 ≠ DELIMITER ∨
          str.getD (STR_POSITION_DATA4_PART1 - 1) 0 ≠ DELIMITER ∨
          str.getD (STR_POSITION_DATA4_PART2 - 1) 0 ≠ DELIMITER then
    .error .formatHyphen
  else
    let r1 := hex_string_to_number str STR_POSITION_DATA1 4 0
    let r2 := hex_string_to_number str STR_POSITION_DATA2 2 0
    let r3 := hex_string_to_number str STR_POSITION_DATA3 2 0
    let r4 := hex_string_to_bytes str STR_POSITION_DATA4_PART1 (List.replicate 8 0) 0 2
    let r5 := hex_string_to_bytes str STR_POSITION_DATA4_PART2 r4.2 2 6
    if r1.1 && r2.1 && r3.1 && r4.1 && r5.1 then
      .ok ⟨r1.2, r2.2, r3.2, r5.2⟩
    else
      .error .formatNonHex

/-- A character of the accepted hex alphabet 0-9, A-F, a-f (spec §4.2). -/
def isHexDigit (c : Nat) : Bool :=
  decide ((48 ≤ c ∧ c ≤ 57) ∨ (65 ≤ c ∧ c ≤ 70) ∨ (97 ≤ c ∧ c ≤ 102))

/-- The numeric value of one hex character as the spec words it. -/
def specHexVal (c : Nat) : Nat :=
  if 48 ≤ c ∧ c ≤ 57 then c - 48
  else if 65 ≤ c ∧ c ≤ 70 then c - 55
  else if 97 ≤ c ∧ c ≤ 102 then c - 87
  else 0

/-- The byte whose value is 16 times the hex value of the character at `q`
plus the hex value of the character at `q + 1`. -/
def specByteAt (s : List Nat) (q : Nat) : Nat :=
  16 * specHexVal (s.getD q 0) + specHexVal (s.getD (q + 1) 0)

/-- The big-endian-in-text numeric value of the k hex digits at positions
[pos, pos + k). -/
def specHexNumber (s : List Nat) (pos : Nat) : Nat → Nat
  | 0 => 0
  | k + 1 => 16 * specHexNumber s pos k + specHexVal (s.getD (pos + k) 0)

example : parse_guid [] 0 = .error (.lengthError 0) := rfl

/-! Basic lemmas about characters, octets and list access. -/

theorem getD_set_eq {l : List Nat} {i : Nat} {a d : Nat} (h : i < l.length) :
    (l.set i a).getD i d = a := by
  simp [List.getElem?_set_self h]

theorem getD_set_ne {l : List Nat} {i j : Nat} {a d : Nat} (h : i ≠ j) :
    (l.set i a).getD j d = l.getD j d := by
  simp [List.getElem?_set_ne h]

theorem specHexVal_lt (c : Nat) : specHexVal c < 16 := by
  unfold specHexVal
  split <;> [omega; skip]
  split <;> [omega; skip]
  split <;> omega

theorem hexDigitValue_eq_spec {c : Nat} (h : isHexDigit c = true) :
    hexDigitValue c = some (specHexVal c) := by
  rw [isHexDigit, decide_eq_true_iff] at h
  by_cases hA : 48 ≤ c ∧ c ≤ 57
  · simp only [hexDigitValue, specHexVal, if_pos hA]
    exact congrArg some (by omega)
  · by_cases hC : 65 ≤ c ∧ c ≤ 70
    · simp only [hexDigitValue, specHexVal, if_neg hA, if_pos (Or.inl hC), if_pos hC]
      exact congrArg some (by omega)
    · by_cases hD : 97 ≤ c ∧ c ≤ 102
      · simp only [hexDigitValue, specHexVal, if_neg hA, if_pos (Or.inr hD), if_neg hC,
          if_pos hD]
        exact congrArg some (by omega)
      · exfalso; omega

theorem hexDigitValue_eq_none {c : Nat} (h : isHexDigit c = false) :
    hexDigitValue c = none := by
  rw [isHexDigit, decide_eq_false_iff_not] at h
  unfold hexDigitValue
  rw [if_neg (show ¬(48 ≤ c ∧ c ≤ 57) from fun hc => h (Or.inl hc))]
  rw [if_neg (show ¬((65 ≤ c ∧ c ≤ 70) ∨ (97 ≤ c ∧ c ≤ 102)) from fun hc => h (Or.inr hc))]

theorem or_sixteen : ∀ m < 16, ∀ l < 16, (m <<< 4) ||| l = 16 * m + l := by decide

theorem shiftLeft_eight_or (v : Nat) {b : Nat} (hb : b < 256) :
    (v <<< 8) ||| b = 256 * v + b := by
  rw [Nat.shiftLeft_eq, Nat.mul_comm v (2 ^ 8)]
  rw [← Nat.mul_add_lt_is_or (by simpa using hb) v]

theorem hexOctet_spec {s : List Nat} {pos : Nat}
    (h1 : isHexDigit (s.getD pos 0) = true)
    (h2 : isHexDigit (s.getD (pos + 1) 0) = true) :
    hexOctet s pos = some (specByteAt s pos) := by
  rw [hexOctet, hexDigitValue_eq_spec h1, hexDigitValue_eq_spec h2]
  exact congrArg some (or_sixteen _ (specHexVal_lt _) _ (specHexVal_lt _))

theorem hexOctet_none {s : List Nat} {pos : Nat}
    (h : isHexDigit (s.getD pos 0) = false ∨ isHexDigit (s.getD (pos + 1) 0) = false) :
    hexOctet s pos = none := by
  rw [hexOctet]
  rcases h with h | h
  · rw [hexDigitValue_eq_none h]
  · rw [hexDigitValue_eq_none h]
    cases hexDigitValue (s.getD pos 0) <;> rfl

theorem specByteAt_lt (s : List Nat) (q : Nat) : specByteAt s q < 256 := by
  have h1 := specHexVal_lt (s.getD q 0)
  have h2 := specHexVal_lt (s.getD (q + 1) 0)
  rw [specByteAt]; omega

/-! Success of the decoding loops on all-hex runs. -/

theorem numLoop_spec_two {s : List Nat} {pos : Nat} (v : Nat)
    (h : ∀ q, pos ≤ q → q < pos + 4 → isHexDigit (s.getD q 0) = true) :
    hexStringToNumberLoop s pos v 2 =
      some (256 * (256 * v + specByteAt s pos) + specByteAt s (pos + 2)) := by
  have o1 : hexOctet s pos = some (specByteAt s pos) :=
    hexOctet_spec (h pos (by omega) (by omega)) (h (pos + 1) (by omega) (by omega))
  have o2 : hexOctet s (pos + 2) = some (specByteAt s (pos + 2)) :=
    hexOctet_spec (h (pos + 2) (by omega) (by omega)) (h (pos + 2 + 1) (by omega) (by omega))
  simp only [hexStringToNumberLoop, o1, o2]
  rw [shiftLeft_eight_or v (specByteAt_lt s pos),
    shiftLeft_eight_or _ (specByteAt_lt s (pos + 2))]

theorem numLoop_spec_four {s : List Nat} {pos : Nat} (v : Nat)
    (h : ∀ q, pos ≤ q → q < pos + 8 → isHexDigit (s.getD q 0) = true) :
    hexStringToNumberLoop s pos v 4 =
      some (256 * (256 * (256 * (256 * v + specByteAt s pos) + specByteAt s (pos + 2))
        + specByteAt s (pos + 2 + 2)) + specByteAt s (pos + 2 + 2 + 2)) := by
  have o1 : hexOctet s pos = some (specByteAt s pos) :=
    hexOctet_spec (h pos (by omega) (by omega)) (h (pos + 1) (by omega) (by omega))
  have o2 : hexOctet s (pos + 2) = some (specByteAt s (pos + 2)) :=
    hexOctet_spec (h (pos + 2) (by omega) (by omega)) (h (pos + 2 + 1) (by omega) (by omega))
  have o3 : hexOctet s (pos + 2 + 2) = some (specByteAt s (pos + 2 + 2)) :=
    hexOctet_spec (h (pos + 2 + 2) (by omega) (by omega))
      (h (pos + 2 + 2 + 1) (by omega) (by omega))
  have o4 : hexOctet s (pos + 2 + 2 + 2) = some (specByteAt s (pos + 2 + 2 + 2)) :=
    hexOctet_spec (h (pos + 2 + 2 + 2) (by omega) (by omega))
      (h (pos + 2 + 2 + 2 + 1) (by omega) (by omega))
  simp only [hexStringToNumberLoop, o1, o2, o3, o4]
  rw [shiftLeft_eight_or v (specByteAt_lt s pos),
    shiftLeft_eight_or _ (specByteAt_lt s (pos + 2)),
    shiftLeft_eight_or _ (specByteAt_lt s (pos + 2 + 2)),
    shiftLeft_eight_or _ (specByteAt_lt s (pos + 2 + 2 + 2))]

theorem number_spec_two {s : List Nat} {pos : Nat} (io : Nat)
    (h : ∀ q, pos ≤ q → q < pos + 4 → isHexDigit (s.getD q 0) = true) :
    hex_string_to_number s pos 2 io = (true, specHexNumber s pos 4) := by
  rw [hex_string_to_number, numLoop_spec_two 0 h]
  refine congrArg (Prod.mk true) ?_
  simp only [specByteAt, specHexNumber, Nat.add_assoc, Nat.add_zero]
  norm_num
  omega

theorem number_spec_four {s : List Nat} {pos : Nat} (io : Nat)
    (h : ∀ q, pos ≤ q → q < pos + 8 → isHexDigit (s.getD q 0) = true) :
    hex_string_to_number s pos 4 io = (true, specHexNumber s pos 8) := by
  rw [hex_string_to_number, numLoop_spec_four 0 h]
  refine congrArg (Prod.mk true) ?_
  simp only [specByteAt, specHexNumber, Nat.add_assoc, Nat.add_zero]
  norm_num
  omega

theorem bytesLoop_spec_two {s : List Nat} {pos : Nat} (out : List Nat) (outPos : Nat)
    (h : ∀ q, pos ≤ q → q < pos + 4 → isHexDigit (s.getD q 0) = true) :
    hexStringToBytesLoop s pos out outPos 2 =
      (true, (out.set outPos (specByteAt s pos)).set (outPos + 1) (specByteAt s (pos + 2))) := by
  have o1 : hexOctet s pos = some (specByteAt s pos) :=
    hexOctet_spec (h pos (by omega) (by omega)) (h (pos + 1) (by omega) (by omega))
  have o2 : hexOctet s (pos + 2) = some (specByteAt s (pos + 2)) :=
    hexOctet_spec (h (pos + 2) (by omega) (by omega)) (h (pos + 2 + 1) (by omega) (by omega))
  simp only [hexStringToBytesLoop, o1, o2]

theorem bytesLoop_spec_six {s : List Nat} {pos : Nat} (out : List Nat) (outPos : Nat)
    (h : ∀ q, pos ≤ q → q < pos + 12 → isHexDigit (s.getD q 0) = true) :
    hexStringToBytesLoop s pos out outPos 6 =
      (true, (((((out.set outPos (specByteAt s pos)).set (outPos + 1)
        (specByteAt s (pos + 2))).set (outPos + 1 + 1)
        (specByteAt s (pos + 2 + 2))).set (outPos + 1 + 1 + 1)
        (specByteAt s (pos + 2 + 2 + 2))).set (outPos + 1 + 1 + 1 + 1)
        (specByteAt s (pos + 2 + 2 + 2 + 2))).set (outPos + 1 + 1 + 1 + 1 + 1)
        (specByteAt s (pos + 2 + 2 + 2 + 2 + 2))) := by
  have o1 : hexOctet s pos = some (specByteAt s pos) :=
    hexOctet_spec (h pos (by omega) (by omega)) (h (pos + 1) (by omega) (by omega))
  have o2 : hexOctet s (pos + 2) = some (specByteAt s (pos + 2)) :=
    hexOctet_spec (h (pos + 2) (by omega) (by omega)) (h (pos + 2 + 1) (by omega) (by omega))
  have o3 : hexOctet s (pos + 2 + 2) = some (specByteAt s (pos + 2 + 2)) :=
    hexOctet_spec (h (pos + 2 + 2) (by omega) (by omega))
      (h (pos + 2 + 2 + 1) (by omega) (by omega))
  have o4 : hexOctet s (pos + 2 + 2 + 2) = some (specByteAt s (pos + 2 + 2 + 2)) :=
    hexOctet_spec (h (pos + 2 + 2 + 2) (by omega) (by omega))
      (h (pos + 2 + 2 + 2 + 1) (by omega) (by omega))
  have o5 : hexOctet s (pos + 2 + 2 + 2 + 2) = some (specByteAt s (pos + 2 + 2 + 2 + 2)) :=
    hexOctet_spec (h (pos + 2 + 2 + 2 + 2) (by omega) (by omega))
      (h (pos + 2 + 2 + 2 + 2 + 1) (by omega) (by omega))
  have o6 : hexOctet s (pos + 2 + 2 + 2 + 2 + 2) =
      some (specByteAt s (pos + 2 + 2 + 2 + 2 + 2)) :=
    hexOctet_spec (h (pos + 2 + 2 + 2 + 2 + 2) (by omega) (by omega))
      (h (pos + 2 + 2 + 2 + 2 + 2 + 1) (by omega) (by omega))
  simp only [hexStringToBytesLoop, o1, o2, o3, o4, o5, o6]

/-- On an input with hyphens at positions 8, 13, 18, 23 and a hex digit at
every other position below 36, `parse_guid` succeeds and decodes each field
as the spec describes. -/
theorem parse_guid_ok_spec {s : List Nat}
    (h8 : s.getD 8 0 = 45) (h13 : s.getD 13 0 = 45)
    (h18 : s.getD 18 0 = 45) (h23 : s.getD 23 0 = 45)
    (hhex : ∀ p, p < 36 → p ≠ 8 → p ≠ 13 → p ≠ 18 → p ≠ 23 →
      isHexDigit (s.getD p 0) = true) :
    parse_guid s 36 = .ok ⟨specHexNumber s 0 8, specHexNumber s 9 4, specHexNumber s 14 4,
      [specByteAt s 19, specByteAt s 21, specByteAt s 24, specByteAt s 26,
       specByteAt s 28, specByteAt s 30, specByteAt s 32, specByteAt s 34]⟩ := by
  have hn1 : hex_string_to_number s 0 4 0 = (true, specHexNumber s 0 8) :=
    number_spec_four 0
      (fun q hq1 hq2 => hhex q (by omega) (by omega) (by omega) (by omega) (by omega))
  have hn2 : hex_string_to_number s 9 2 0 = (true, specHexNumber s 9 4) :=
    number_spec_two 0
      (fun q hq1 hq2 => hhex q (by omega) (by omega) (by omega) (by omega) (by omega))
  have hn3 : hex_string_to_number s 14 2 0 = (true, specHexNumber s 14 4) :=
    number_spec_two 0
      (fun q hq1 hq2 => hhex q (by omega) (by omega) (by omega) (by omega) (by omega))
  have hb1 : hexStringToBytesLoop s 19 (List.replicate 8 0) 0 2 =
      (true, ((List.replicate 8 0).set 0 (specByteAt s 19)).set (0 + 1)
        (specByteAt s (19 + 2))) :=
    bytesLoop_spec_two (List.replicate 8 0) 0
      (fun q hq1 hq2 => hhex q (by omega) (by omega) (by omega) (by omega) (by omega))
  have hb2 := bytesLoop_spec_six
    (s := s)
    (((List.replicate 8 0).set 0 (specByteAt s 19)).set (0 + 1) (specByteAt s (19 + 2))) 2
    (show ∀ q, 24 ≤ q → q < 24 + 12 → isHexDigit (s.getD q 0) = true from
      fun q hq1 hq2 => hhex q (by omega) (by omega) (by omega) (by omega) (by omega))
  have h8' : s[8]?.getD 0 = 45 := by simpa using h8
  have h13' : s[13]?.getD 0 = 45 := by simpa using h13
  have h18' : s[18]?.getD 0 = 45 := by simpa using h18
  have h23' : s[23]?.getD 0 = 45 := by simpa using h23
  simp only [parse_guid, STR_POSITION_DATA1, STR_POSITION_DATA2, STR_POSITION_DATA3,
    STR_POSITION_DATA4_PART1, STR_POSITION_DATA4_PART2, UUID_STRING_LENGTH, DELIMITER,
    hex_string_to_bytes]
  norm_num [h8', h13', h18', h23']
  rw [hn1, hn2, hn3, hb1]
  dsimp only
  rw [hb2]
  norm_num [List.replicate, List.set]

/-- C3: for every input string and every length value not equal to 36,
`parse_guid` rejects the input with a length error, regardless of the
string's content. -/
theorem C3_length_rejection (str : List Nat) (length : Nat) (h : length ≠ 36) :
    parse_guid str length = .error (.lengthError length) := by
  rw [parse_guid, if_pos (show length ≠ UUID_STRING_LENGTH from h)]

theorem C3_length_rejection_witness :
    parse_guid [48, 49] 5 = .error (.lengthError 5) :=
  C3_length_rejection [48, 49] 5 (by decide)

/-- C1: on every 36-character input whose positions 8, 13, 18, 23 hold '-'
and whose other positions hold valid hex digits, `parse_guid` returns the
GUID whose Data1 is the big-endian-in-text numeric value of the 8 hex digits
at [0,8), whose Data2 and Data3 are the numeric values of the digits at
[9,13) and [14,18), and whose Data4 is the byte-for-byte decode of positions
[19,23) followed by [24,36). -/
theorem C1_parse_fields (s : List Nat) (_hlen : s.length = 36)
    (h8 : s.getD 8 0 = 45) (h13 : s.getD 13 0 = 45) (h18 : s.getD 18 0 = 45)
    (h23 : s.getD 23 0 = 45)
    (hhex : ∀ p, p < 36 → p ≠ 8 → p ≠ 13 → p ≠ 18 → p ≠ 23 →
      isHexDigit (s.getD p 0) = true) :
    parse_guid s 36 = .ok ⟨specHexNumber s 0 8, specHexNumber s 9 4, specHexNumber s 14 4,
      [specByteAt s 19, specByteAt s 21, specByteAt s 24, specByteAt s 26,
       specByteAt s 28, specByteAt s 30, specByteAt s 32, specByteAt s 34]⟩ :=
  parse_guid_ok_spec h8 h13 h18 h23 hhex

theorem C1_parse_fields_witness :
    parse_guid [49, 50, 51, 52, 53, 54, 55, 56, 45, 57, 97, 98, 99, 45, 68, 69, 70, 48,
      45, 49, 49, 50, 50, 45, 51, 51, 52, 52, 53, 53, 54, 54, 55, 55, 56, 56] 36 =
    .ok ⟨specHexNumber [49, 50, 51, 52, 53, 54, 55, 56, 45, 57, 97, 98, 99, 45, 68, 69,
        70, 48, 45, 49, 49, 50, 50, 45, 51, 51, 52, 52, 53, 53, 54, 54, 55, 55, 56, 56] 0 8,
      specHexNumber [49, 50, 51, 52, 53, 54, 55, 56, 45, 57, 97, 98, 99, 45, 68, 69, 70,
        48, 45, 49, 49, 50, 50, 45, 51, 51, 52, 52, 53, 53, 54, 54, 55, 55, 56, 56] 9 4,
      specHexNumber [49, 50, 51, 52, 53, 54, 55, 56, 45, 57, 97, 98, 99, 45, 68, 69, 70,
        48, 45, 49, 49, 50, 50, 45, 51, 51, 52, 52, 53, 53, 54, 54, 55, 55, 56, 56] 14 4,
      [specByteAt [49, 50, 51, 52, 53, 54, 55, 56, 45, 57, 97, 98, 99, 45, 68, 69, 70, 48,
        45, 49, 49, 50, 50, 45, 51, 51, 52, 52, 53, 53, 54, 54, 55, 55, 56, 56] 19,
       specByteAt [49, 50, 51, 52, 53, 54, 55, 56, 45, 57, 97, 98, 99, 45, 68, 69, 70, 48,
        45, 49, 49, 50, 50, 45, 51, 51, 52, 52, 53, 53, 54, 54, 55, 55, 56, 56] 21,
       specByteAt [49, 50, 51, 52, 53, 54, 55, 56, 45, 57, 97, 98, 99, 45, 68, 69, 70, 48,
        45, 49, 49, 50, 50, 45, 51, 51, 52, 52, 53, 53, 54, 54, 55, 55, 56, 56] 24,
       specByteAt [49, 50, 51, 52, 53, 54, 55, 56, 45, 57, 97, 98, 99, 45, 68, 69, 70, 48,
        45, 49, 49, 50, 50, 45, 51, 51, 52, 52, 53, 53, 54, 54, 55, 55, 56, 56] 26,
       specByteAt [49, 50, 51, 52, 53, 54, 55, 56, 45, 57, 97, 98, 99, 45, 68, 69, 70, 48,
        45, 49, 49, 50, 50, 45, 51, 51, 52, 52, 53, 53, 54, 54, 55, 55, 56, 56] 28,
       specByteAt [49, 50, 51, 52, 53, 54, 55, 56, 45, 57, 97, 98, 99, 45, 68, 69, 70, 48,
        45, 49, 49, 50, 50, 45, 51, 51, 52, 52, 53, 53, 54, 54, 55, 55, 56, 56] 30,
       specByteAt [49, 50, 51, 52, 53, 54, 55, 56, 45, 57, 97, 98, 99, 45, 68, 69, 70, 48,
        45, 49, 49, 50, 50, 45, 51, 51, 52, 52, 53, 53, 54, 54, 55, 55, 56, 56] 32,
       specByteAt [49, 50, 51, 52, 53, 54, 55, 56, 45, 57, 97, 98, 99, 45, 68, 69, 70, 48,
        45, 49, 49, 50, 50, 45, 51, 51, 52, 52, 53, 53, 54, 54, 55, 55, 56, 56] 34]⟩ :=
  C1_parse_fields _ (by decide) (by decide) (by decide) (by decide) (by decide) (by decide)

/-- C7: `hex_octet_to_byte` succeeds if and only if both of the two characters
it is given are in 0-9, A-F, a-f; on success the written byte is 16 times the
hex value of the first character plus that of the second; and the result
depends only on the two characters given (it never reads more than those two
bytes). -/
theorem C7_hex_octet_contract (s : List Nat) (pos : Nat) (b0 : Nat) :
    ((hex_octet_to_byte s pos b0).1 = true ↔
      (isHexDigit (s.getD pos 0) = true ∧ isHexDigit (s.getD (pos + 1) 0) = true)) ∧
    ((hex_octet_to_byte s pos b0).1 = true →
      (hex_octet_to_byte s pos b0).2 = specByteAt s pos) ∧
    (∀ s' pos', s.getD pos 0 = s'.getD pos' 0 →
      s.getD (pos + 1) 0 = s'.getD (pos' + 1) 0 →
      hex_octet_to_byte s pos b0 = hex_octet_to_byte s' pos' b0) := by
  refine ⟨?_, ?_, ?_⟩
  · by_cases hm : isHexDigit (s.getD pos 0) = true
    · by_cases hl : isHexDigit (s.getD (pos + 1) 0) = true
      · rw [hex_octet_to_byte, hexOctet_spec hm hl]
        exact ⟨fun _ => ⟨hm, hl⟩, fun _ => rfl⟩
      · rw [hex_octet_to_byte, hexOctet_none (Or.inr (by simpa using hl))]
        exact ⟨fun hc => absurd hc Bool.false_ne_true, fun hc => absurd hc.2 hl⟩
    · rw [hex_octet_to_byte, hexOctet_none (Or.inl (by simpa using hm))]
      exact ⟨fun hc => absurd hc Bool.false_ne_true, fun hc => absurd hc.1 hm⟩
  · intro hsucc
    by_cases hm : isHexDigit (s.getD pos 0) = true
    · by_cases hl : isHexDigit (s.getD (pos + 1) 0) = true
      · rw [hex_octet_to_byte, hexOctet_spec hm hl]
      · rw [hex_octet_to_byte, hexOctet_none (Or.inr (by simpa using hl))] at hsucc
        simp at hsucc
    · rw [hex_octet_to_byte, hexOctet_none (Or.inl (by simpa using hm))] at hsucc
      simp at hsucc
  · intro s' pos' e1 e2
    rw [hex_octet_to_byte, hex_octet_to_byte, hexOctet, hexOctet, e1, e2]

theorem C7_hex_octet_contract_witness :
    (hex_octet_to_byte [65, 102] 0 0).2 = specByteAt [65, 102] 0 ∧
    hex_octet_to_byte [65, 102] 0 0 = hex_octet_to_byte [50, 65, 102] 1 0 :=
  ⟨(C7_hex_octet_contract [65, 102] 0 0).2.1 (by decide),
   (C7_hex_octet_contract [65, 102] 0 0).2.2 [50, 65, 102] 1 (by decide) (by decide)⟩

/-- C10: whenever `hex_octet_to_byte` or `hex_string_to_number` returns
failure, its output reference parameter (`byte_output` / `int_output`) holds
the value it held before the call; the output is written only on the success
path. -/
theorem C10_outputs_unchanged_on_failure :
    (∀ s pos b0, (hex_octet_to_byte s pos b0).1 = false →
      (hex_octet_to_byte s pos b0).2 = b0) ∧
    (∀ s pos bc io, (hex_string_to_number s pos bc io).1 = false →
      (hex_string_to_number s pos bc io).2 = io) := by
  constructor
  · intro s pos b0 h
    rw [hex_octet_to_byte] at h ⊢
    cases ho : hexOctet s pos
    · rfl
    · rw [ho] at h
      simp at h
  · intro s pos bc io h
    rw [hex_string_to_number] at h ⊢
    cases hn : hexStringToNumberLoop s pos 0 bc
    · rfl
    · rw [hn] at h
      simp at h

theorem C10_outputs_unchanged_on_failure_witness :
    (hex_octet_to_byte [90, 90] 0 5).2 = 5 ∧
    (hex_string_to_number [90, 90] 0 1 7).2 = 7 :=
  ⟨C10_outputs_unchanged_on_failure.1 [90, 90] 0 5 (by decide),
   C10_outputs_unchanged_on_failure.2 [90, 90] 0 1 7 (by decide)⟩

/-! The canonical-string producing direction, for the round-trip law. -/

/-- Modelled from the spec: `from_bytes(16 bytes) -> Identifier` (§4.1), with
the 16-byte layout of §6: Data1, Data2, Data3 in little-endian
platform-native order, Data4 byte-for-byte.  The repository constructs a
`krabs::guid` from an already-laid-out Windows `GUID` struct, which is this
decomposition of the raw 16 bytes. -/
def from_bytes (v : List Nat) : GUID :=
  ⟨v.getD 0 0 + 256 * v.getD 1 0 + 65536 * v.getD 2 0 + 16777216 * v.getD 3 0,
   v.getD 4 0 + 256 * v.getD 5 0,
   v.getD 6 0 + 256 * v.getD 7 0,
   (v.drop 8).take 8⟩

/-- The (uppercase, platform-canonical) hex character of a nibble value. -/
def natToHexDigit (d : Nat) : Nat := if d < 10 then 48 + d else 55 + d

/-- The two hex characters of one byte, most significant digit first. -/
def byteToHex (b : Nat) : List Nat := [natToHexDigit (b / 16), natToHexDigit (b % 16)]

/-- The hex characters of a run of bytes. -/
def bytesToHexChars (bs : List Nat) : List Nat := (bs.map byteToHex).flatten

/-- The big-endian byte decomposition of an integer, `k` bytes. -/
def bytesBE (n : Nat) : Nat → List Nat
  | 0 => []
  | k + 1 => ((n >>> (8 * k)) % 256) :: bytesBE n k

/-- Modelled from the spec: `to_canonical_string` (§4.1).  In the repository
`std::to_wstring(const krabs::guid&)` delegates to the platform primitive
StringFromCLSID, which is not part of the sources; per §4.1 and §6 the
canonical text is the 8-4-4-4-12 hex rendering with the three leading fields
written as big-endian-in-text numbers and Data4 byte-for-byte, hyphens at
offsets 8, 13, 18, 23 (the braces the platform primitive adds around its
38-character form are not part of the canonical 36-character text). -/
def to_canonical_string (g : GUID) : List Nat :=
  bytesToHexChars (bytesBE g.Data1 4) ++
    45 :: (bytesToHexChars (bytesBE g.Data2 2) ++
      45 :: (bytesToHexChars (bytesBE g.Data3 2) ++
        45 :: (bytesToHexChars (g.Data4.take 2) ++
          45 :: bytesToHexChars (g.Data4.drop 2))))

/-- Modelled from the spec: `from_canonical_string` "delegates to the Parser
component (§4.2); propagates its error unchanged" (§4.1).  (The repository's
`guid(const std::wstring&)` delegates to the platform CLSIDFromString, not in
the sources; the parser component is `guid_parser::parse_guid`.) -/
def from_canonical_string (s : List Nat) : Except ParseError GUID :=
  parse_guid s s.length

theorem isHexDigit_natToHexDigit {d : Nat} (h : d < 16) :
    isHexDigit (natToHexDigit d) = true := by
  revert h
  revert d
  decide

theorem specHexVal_natToHexDigit {d : Nat} (h : d < 16) :
    specHexVal (natToHexDigit d) = d := by
  revert h
  revert d
  decide

theorem length_eq_eight {l : List Nat} (h : l.length = 8) :
    ∃ a b c d e f g k, l = [a, b, c, d, e, f, g, k] := by
  rcases l with _ | ⟨a, _ | ⟨b, _ | ⟨c, _ | ⟨d, _ | ⟨e, _ | ⟨f, _ | ⟨g, _ | ⟨k, _ | ⟨m, t⟩⟩⟩⟩⟩⟩⟩⟩⟩ <;>
    simp only [List.length_cons, List.length_nil] at h <;> try omega
  exact ⟨a, b, c, d, e, f, g, k, rfl⟩

theorem to_canonical_explicit (d1 d2 d3 c0 c1 c2 c3 c4 c5 c6 c7 : Nat) :
    to_canonical_string ⟨d1, d2, d3, [c0, c1, c2, c3, c4, c5, c6, c7]⟩ =
      [natToHexDigit (d1 / 16777216 % 256 / 16), natToHexDigit (d1 / 16777216 % 256 % 16),
       natToHexDigit (d1 / 65536 % 256 / 16), natToHexDigit (d1 / 65536 % 256 % 16),
       natToHexDigit (d1 / 256 % 256 / 16), natToHexDigit (d1 / 256 % 256 % 16),
       natToHexDigit (d1 % 256 / 16), natToHexDigit (d1 % 256 % 16),
       45,
       natToHexDigit (d2 / 256 % 256 / 16), natToHexDigit (d2 / 256 % 256 % 16),
       natToHexDigit (d2 % 256 / 16), natToHexDigit (d2 % 256 % 16),
       45,
       natToHexDigit (d3 / 256 % 256 / 16), natToHexDigit (d3 / 256 % 256 % 16),
       natToHexDigit (d3 % 256 / 16), natToHexDigit (d3 % 256 % 16),
       45,
       natToHexDigit (c0 / 16), natToHexDigit (c0 % 16),
       natToHexDigit (c1 / 16), natToHexDigit (c1 % 16),
       45,
       natToHexDigit (c2 / 16), natToHexDigit (c2 % 16),
       natToHexDigit (c3 / 16), natToHexDigit (c3 % 16),
       natToHexDigit (c4 / 16), natToHexDigit (c4 % 16),
       natToHexDigit (c5 / 16), natToHexDigit (c5 % 16),
       natToHexDigit (c6 / 16), natToHexDigit (c6 % 16),
       natToHexDigit (c7 / 16), natToHexDigit (c7 % 16)] := by
  simp only [to_canonical_string, bytesToHexChars, bytesBE, byteToHex,
    Nat.shiftRight_eq_div_pow, List.map_cons, List.map_nil, List.flatten,
    List.take, List.drop]
  norm_num

theorem parse_to_canonical (d1 d2 d3 c0 c1 c2 c3 c4 c5 c6 c7 : Nat)
    (h1 : d1 < 4294967296) (h2 : d2 < 65536) (h3 : d3 < 65536)
    (hc0 : c0 < 256) (hc1 : c1 < 256) (hc2 : c2 < 256) (hc3 : c3 < 256)
    (hc4 : c4 < 256) (hc5 : c5 < 256) (hc6 : c6 < 256) (hc7 : c7 < 256) :
    parse_guid (to_canonical_string ⟨d1, d2, d3, [c0, c1, c2, c3, c4, c5, c6, c7]⟩) 36 =
      .ok ⟨d1, d2, d3, [c0, c1, c2, c3, c4, c5, c6, c7]⟩ := by
  have key := parse_guid_ok_spec
    (s := to_canonical_string ⟨d1, d2, d3, [c0, c1, c2, c3, c4, c5, c6, c7]⟩)
    (by rw [to_canonical_explicit]; rfl) (by rw [to_canonical_explicit]; rfl)
    (by rw [to_canonical_explicit]; rfl) (by rw [to_canonical_explicit]; rfl)
    (by
      simp only [to_canonical_explicit]
      intro p hp e8 e13 e18 e23
      interval_cases p <;>
        first
        | omega
        | (simp only [List.getD_cons_zero, List.getD_cons_succ]
           exact isHexDigit_natToHexDigit (by omega)))
  rw [to_canonical_explicit] at key ⊢
  rw [key]
  simp only [Except.ok.injEq, GUID.mk.injEq, List.cons.injEq, and_true]
  refine ⟨?_, ?_, ?_, ?_, ?_, ?_, ?_, ?_, ?_, ?_, ?_⟩ <;>
    (simp only [specHexNumber, specByteAt]
     norm_num [List.getD_cons_zero, List.getD_cons_succ]
     simp (disch := omega) only [specHexVal_natToHexDigit]
     omega)

theorem to_canonical_length (d1 d2 d3 c0 c1 c2 c3 c4 c5 c6 c7 : Nat) :
    (to_canonical_string ⟨d1, d2, d3, [c0, c1, c2, c3, c4, c5, c6, c7]⟩).length = 36 := by
  rw [to_canonical_explicit]
  rfl

/-- C2: for every 16-byte value v, parsing the canonical string produced for
v yields back exactly v. -/
theorem C2_round_trip (v : List Nat) (hlen : v.length = 16) (hb : ∀ b ∈ v, b < 256) :
    from_canonical_string (to_canonical_string (from_bytes v)) = .ok (from_bytes v) := by
  have hget : ∀ i, i < 16 → v.getD i 0 < 256 := by
    intro i hi
    have hi' : i < v.length := by omega
    rw [List.getD_eq_getElem v 0 hi']
    exact hb _ (List.getElem_mem _)
  have hd4len : ((v.drop 8).take 8).length = 8 := by
    simp [hlen]
  obtain ⟨c0, c1, c2, c3, c4, c5, c6, c7, hc⟩ := length_eq_eight hd4len
  have hcb : ∀ b ∈ [c0, c1, c2, c3, c4, c5, c6, c7], b < 256 := by
    intro b hbm
    rw [← hc] at hbm
    exact hb b (List.mem_of_mem_drop (List.mem_of_mem_take hbm))
  have hfb : from_bytes v = ⟨v.getD 0 0 + 256 * v.getD 1 0 + 65536 * v.getD 2 0 +
      16777216 * v.getD 3 0, v.getD 4 0 + 256 * v.getD 5 0, v.getD 6 0 + 256 * v.getD 7 0,
      [c0, c1, c2, c3, c4, c5, c6, c7]⟩ := by
    rw [from_bytes, hc]
  rw [hfb, from_canonical_string, to_canonical_length]
  exact parse_to_canonical _ _ _ _ _ _ _ _ _ _ _
    (by have e0 := hget 0 (by omega); have e1 := hget 1 (by omega)
        have e2 := hget 2 (by omega); have e3 := hget 3 (by omega); omega)
    (by have e4 := hget 4 (by omega); have e5 := hget 5 (by omega); omega)
    (by have e6 := hget 6 (by omega); have e7 := hget 7 (by omega); omega)
    (hcb c0 (by simp)) (hcb c1 (by simp)) (hcb c2 (by simp)) (hcb c3 (by simp))
    (hcb c4 (by simp)) (hcb c5 (by simp)) (hcb c6 (by simp)) (hcb c7 (by simp))

theorem C2_round_trip_witness :
    from_canonical_string (to_canonical_string (from_bytes
      [0, 1, 2, 3, 4, 5, 6, 7, 8, 9, 10, 11, 12, 13, 14, 15])) =
      .ok (from_bytes [0, 1, 2, 3, 4, 5, 6, 7, 8, 9, 10, 11, 12, 13, 14, 15]) :=
  C2_round_trip _ (by decide) (by decide)

/-! Failure propagation through the decoding loops. -/

theorem numLoop_none {s : List Nat} : ∀ (n pos v j : Nat), j < n →
    hexOctet s (pos + 2 * j) = none → hexStringToNumberLoop s pos v n = none := by
  intro n
  induction n with
  | zero => intro pos v j hj hoct; exact absurd hj (Nat.not_lt_zero j)
  | succ k ih =>
    intro pos v j hj hoct
    rcases Nat.eq_zero_or_pos j with rfl | hjpos
    · have h0 : hexOctet s pos = none := by
        rw [show pos = pos + 2 * 0 from by omega]
        exact hoct
      simp only [hexStringToNumberLoop, h0]
    · obtain ⟨j', rfl⟩ : ∃ j', j = j' + 1 := ⟨j - 1, by omega⟩
      simp only [hexStringToNumberLoop]
      cases ho : hexOctet s pos with
      | none => rfl
      | some b =>
        exact ih (pos + 2) _ j' (by omega)
          (by rw [show pos + 2 + 2 * j' = pos + 2 * (j' + 1) from by omega]; exact hoct)

theorem bytesLoop_false {s : List Nat} : ∀ (n pos : Nat) (out : List Nat) (outPos j : Nat),
    j < n →
    hexOctet s (pos + 2 * j) = none →
    (hexStringToBytesLoop s pos out outPos n).1 = false ∧
    (∀ q d, outPos + j ≤ q →
      ((hexStringToBytesLoop s pos out outPos n).2).getD q d = out.getD q d) := by
  intro n
  induction n with
  | zero => intro pos out outPos j hj hoct; exact absurd hj (Nat.not_lt_zero j)
  | succ k ih =>
    intro pos out outPos j hj hoct
    cases ho : hexOctet s pos with
    | none =>
      constructor
      · simp only [hexStringToBytesLoop, ho]
      · intro q d hq
        simp only [hexStringToBytesLoop, ho]
    | some b =>
      have hjpos : 0 < j := by
        rcases Nat.eq_zero_or_pos j with rfl | hp
        · rw [show pos + 2 * 0 = pos from by omega] at hoct
          rw [ho] at hoct
          cases hoct
        · exact hp
      obtain ⟨j', rfl⟩ : ∃ j', j = j' + 1 := ⟨j - 1, by omega⟩
      have step := ih (pos + 2) (out.set outPos b) (outPos + 1) j' (by omega)
        (by rw [show pos + 2 + 2 * j' = pos + 2 * (j' + 1) from by omega]; exact hoct)
      simp only [hexStringToBytesLoop, ho]
      refine ⟨step.1, fun q d hq => ?_⟩
      rw [step.2 q d (by omega)]
      exact getD_set_ne (by omega)

theorem number_fst_false {s : List Nat} {pos bc : Nat} (io : Nat)
    (h : hexStringToNumberLoop s pos 0 bc = none) :
    (hex_string_to_number s pos bc io).1 = false := by
  rw [hex_string_to_number, h]

/-- Inversion: a successful parse implies the four hyphen positions held the
delimiter. -/
theorem parse_ok_hyphens {s : List Nat} {g : GUID} (h : parse_guid s 36 = .ok g) :
    s.getD 8 0 = 45 ∧ s.getD 13 0 = 45 ∧ s.getD 18 0 = 45 ∧ s.getD 23 0 = 45 := by
  rw [parse_guid, if_neg (by decide)] at h
  simp only [show (STR_POSITION_DATA2 - 1 : Nat) = 8 from rfl,
    show (STR_POSITION_DATA3 - 1 : Nat) = 13 from rfl,
    show (STR_POSITION_DATA4_PART1 - 1 : Nat) = 18 from rfl,
    show (STR_POSITION_DATA4_PART2 - 1 : Nat) = 23 from rfl,
    show (DELIMITER : Nat) = 45 from rfl] at h
  by_cases hhy : (s.getD 8 0 ≠ 45 ∨ s.getD 13 0 ≠ 45 ∨ s.getD 18 0 ≠ 45 ∨ s.getD 23 0 ≠ 45)
  · rw [if_pos hhy] at h
    simp at h
  · push_neg at hhy
    exact ⟨hhy.1, hhy.2.1, hhy.2.2.1, hhy.2.2.2⟩

/-- C4: replacing any of the four hyphen positions of a valid canonical
string with a non-hyphen character makes `parse_guid` fail with the
missing-hyphen format error, and replacing any non-hyphen position with a
hyphen makes it fail with the non-hex-digit format error. -/
theorem C4_delimiter_rejection (s : List Nat) (g : GUID) (hlen : s.length = 36)
    (hok : parse_guid s 36 = .ok g) :
    (∀ p, (p = 8 ∨ p = 13 ∨ p = 18 ∨ p = 23) → ∀ c, c ≠ 45 →
      parse_guid (s.set p c) 36 = .error .formatHyphen) ∧
    (∀ p, p < 36 → ¬(p = 8 ∨ p = 13 ∨ p = 18 ∨ p = 23) →
      parse_guid (s.set p 45) 36 = .error .formatNonHex) := by
  obtain ⟨e8, e13, e18, e23⟩ := parse_ok_hyphens hok
  constructor
  · intro p hp c hc
    rw [parse_guid, if_neg (by decide)]
    simp only [show (STR_POSITION_DATA2 - 1 : Nat) = 8 from rfl,
      show (STR_POSITION_DATA3 - 1 : Nat) = 13 from rfl,
      show (STR_POSITION_DATA4_PART1 - 1 : Nat) = 18 from rfl,
      show (STR_POSITION_DATA4_PART2 - 1 : Nat) = 23 from rfl,
      show (DELIMITER : Nat) = 45 from rfl]
    rcases hp with rfl | rfl | rfl | rfl
    · rw [if_pos (Or.inl (by rw [getD_set_eq (by omega)]; exact hc))]
    · rw [if_pos (Or.inr (Or.inl (by rw [getD_set_eq (by omega)]; exact hc)))]
    · rw [if_pos (Or.inr (Or.inr (Or.inl (by rw [getD_set_eq (by omega)]; exact hc))))]
    · rw [if_pos (Or.inr (Or.inr (Or.inr (by rw [getD_set_eq (by omega)]; exact hc))))]
  · intro p hp hnp
    push_neg at hnp
    obtain ⟨hp8, hp13, hp18, hp23⟩ := hnp
    have hset : (s.set p 45).getD p 0 = 45 := getD_set_eq (by omega)
    rw [parse_guid, if_neg (by decide)]
    simp only [show (STR_POSITION_DATA2 - 1 : Nat) = 8 from rfl,
      show (STR_POSITION_DATA3 - 1 : Nat) = 13 from rfl,
      show (STR_POSITION_DATA4_PART1 - 1 : Nat) = 18 from rfl,
      show (STR_POSITION_DATA4_PART2 - 1 : Nat) = 23 from rfl,
      show (DELIMITER : Nat) = 45 from rfl,
      show (STR_POSITION_DATA1 : Nat) = 0 from rfl,
      show (STR_POSITION_DATA2 : Nat) = 9 from rfl,
      show (STR_POSITION_DATA3 : Nat) = 14 from rfl,
      show (STR_POSITION_DATA4_PART1 : Nat) = 19 from rfl,
      show (STR_POSITION_DATA4_PART2 : Nat) = 24 from rfl]
    rw [if_neg (by
      push_neg
      refine ⟨?_, ?_, ?_, ?_⟩ <;> rw [getD_set_ne (by omega)] <;> assumption)]
    have hrange : p < 8 ∨ (9 ≤ p ∧ p < 13) ∨ (14 ≤ p ∧ p < 18) ∨
        (19 ≤ p ∧ p < 23) ∨ (24 ≤ p ∧ p < 36) := by omega
    have hoctAt : ∀ base, base ≤ p → (p - base) % 2 = 0 ∨ (p - base) % 2 = 1 →
        hexOctet (s.set p 45) (base + 2 * ((p - base) / 2)) = none := by
      intro base hbase hpar
      apply hexOctet_none
      rcases Nat.mod_two_eq_zero_or_one (p - base) with hev | hod
      · left
        rw [show base + 2 * ((p - base) / 2) = p from by omega, hset]
        decide
      · right
        rw [show base + 2 * ((p - base) / 2) + 1 = p from by omega, hset]
        decide
    rcases hrange with h | h | h | h | h
    · have hfst := number_fst_false 0
        (numLoop_none 4 0 0 ((p - 0) / 2) (by omega) (hoctAt 0 (by omega) (by omega)))
      rw [if_neg (by simp [hfst])]
    · have hfst := number_fst_false 0
        (numLoop_none 2 9 0 ((p - 9) / 2) (by omega) (hoctAt 9 (by omega) (by omega)))
      rw [if_neg (by simp [hfst])]
    · have hfst := number_fst_false 0
        (numLoop_none 2 14 0 ((p - 14) / 2) (by omega) (hoctAt 14 (by omega) (by omega)))
      rw [if_neg (by simp [hfst])]
    · have hfst := (bytesLoop_false 2 19 (List.replicate 8 0) 0 ((p - 19) / 2) (by omega)
        (hoctAt 19 (by omega) (by omega))).1
      simp only [List.replicate] at hfst
      rw [if_neg (by simp only [hex_string_to_bytes]; simp [hfst])]
    · have hfst := (bytesLoop_false 6 24
        (hex_string_to_bytes (s.set p 45) 19 (List.replicate 8 0) 0 2).2 2 ((p - 24) / 2)
        (by omega) (hoctAt 24 (by omega) (by omega))).1
      simp only [hex_string_to_bytes, List.replicate] at hfst
      rw [if_neg (by simp only [hex_string_to_bytes]; simp [hfst])]

theorem C4_delimiter_rejection_witness :
    parse_guid ([49, 50, 51, 52, 53, 54, 55, 56, 45, 57, 97, 98, 99, 45, 68, 69, 70, 48,
      45, 49, 49, 50, 50, 45, 51, 51, 52, 52, 53, 53, 54, 54, 55, 55, 56, 56].set 8 65) 36 =
      .error .formatHyphen ∧
    parse_guid ([49, 50, 51, 52, 53, 54, 55, 56, 45, 57, 97, 98, 99, 45, 68, 69, 70, 48,
      45, 49, 49, 50, 50, 45, 51, 51, 52, 52, 53, 53, 54, 54, 55, 55, 56, 56].set 0 45) 36 =
      .error .formatNonHex :=
  ⟨(C4_delimiter_rejection [49, 50, 51, 52, 53, 54, 55, 56, 45, 57, 97, 98, 99, 45, 68, 69,
      70, 48, 45, 49, 49, 50, 50, 45, 51, 51, 52, 52, 53, 53, 54, 54, 55, 55, 56, 56]
      ⟨305419896, 39612, 57072, [17, 34, 51, 68, 85, 102, 119, 136]⟩
      (by decide) (by decide)).1 8 (Or.inl rfl) 65 (by decide),
   (C4_delimiter_rejection [49, 50, 51, 52, 53, 54, 55, 56, 45, 57, 97, 98, 99, 45, 68, 69,
      70, 48, 45, 49, 49, 50, 50, 45, 51, 51, 52, 52, 53, 53, 54, 54, 55, 55, 56, 56]
      ⟨305419896, 39612, 57072, [17, 34, 51, 68, 85, 102, 119, 136]⟩
      (by decide) (by decide)).2 0 (by decide) (by decide)⟩


/-! Case-insensitivity machinery. -/

/-- Two character codes that are equal or differ only by the letter case of a
hex letter (A-F versus a-f). -/
def caseVariantB (a b : Nat) : Bool :=
  decide (a = b ∨ (65 ≤ a ∧ a ≤ 70 ∧ b = a + 32) ∨ (97 ≤ a ∧ a ≤ 102 ∧ b = a - 32))

theorem hexDigitValue_caseVariant {a b : Nat} (h : caseVariantB a b = true) :
    hexDigitValue a = hexDigitValue b := by
  rw [caseVariantB, decide_eq_true_iff] at h
  rcases h with rfl | ⟨h1, h2, rfl⟩ | ⟨h1, h2, rfl⟩
  · rfl
  · unfold hexDigitValue
    rw [if_neg (show ¬(48 ≤ a ∧ a ≤ 57) by omega),
      if_pos (show (65 ≤ a ∧ a ≤ 70) ∨ (97 ≤ a ∧ a ≤ 102) from Or.inl ⟨h1, h2⟩),
      if_neg (show ¬(48 ≤ a + 32 ∧ a + 32 ≤ 57) by omega),
      if_pos (show (65 ≤ a + 32 ∧ a + 32 ≤ 70) ∨ (97 ≤ a + 32 ∧ a + 32 ≤ 102) from
        Or.inr (by omega))]
    exact congrArg some (by omega)
  · unfold hexDigitValue
    rw [if_neg (show ¬(48 ≤ a ∧ a ≤ 57) by omega),
      if_pos (show (65 ≤ a ∧ a ≤ 70) ∨ (97 ≤ a ∧ a ≤ 102) from Or.inr ⟨h1, h2⟩),
      if_neg (show ¬(48 ≤ a - 32 ∧ a - 32 ≤ 57) by omega),
      if_pos (show (65 ≤ a - 32 ∧ a - 32 ≤ 70) ∨ (97 ≤ a - 32 ∧ a - 32 ≤ 102) from
        Or.inl (by omega))]
    exact congrArg some (by omega)

theorem caseVariant_eq45 {a b : Nat} (h : caseVariantB a b = true) :
    a = 45 ↔ b = 45 := by
  rw [caseVariantB, decide_eq_true_iff] at h
  constructor <;> intro h45 <;> omega

theorem hexOctet_caseVariant {s₁ s₂ : List Nat} {pos : Nat}
    (h1 : caseVariantB (s₁.getD pos 0) (s₂.getD pos 0) = true)
    (h2 : caseVariantB (s₁.getD (pos + 1) 0) (s₂.getD (pos + 1) 0) = true) :
    hexOctet s₁ pos = hexOctet s₂ pos := by
  rw [hexOctet, hexOctet, hexDigitValue_caseVariant h1, hexDigitValue_caseVariant h2]

theorem numLoop_caseVariant {s₁ s₂ : List Nat} : ∀ (n pos v : Nat),
    (∀ q, pos ≤ q → q < pos + 2 * n → caseVariantB (s₁.getD q 0) (s₂.getD q 0) = true) →
    hexStringToNumberLoop s₁ pos v n = hexStringToNumberLoop s₂ pos v n := by
  intro n
  induction n with
  | zero => intro pos v h; rfl
  | succ k ih =>
    intro pos v h
    have ho := hexOctet_caseVariant (h pos (by omega) (by omega))
      (h (pos + 1) (by omega) (by omega))
    simp only [hexStringToNumberLoop, ho]
    cases hexOctet s₂ pos with
    | none => rfl
    | some b => exact ih (pos + 2) _ (fun q hq1 hq2 => h q (by omega) (by omega))

theorem bytesLoop_caseVariant {s₁ s₂ : List Nat} :
    ∀ (n pos : Nat) (out : List Nat) (outPos : Nat),
    (∀ q, pos ≤ q → q < pos + 2 * n → caseVariantB (s₁.getD q 0) (s₂.getD q 0) = true) →
    hexStringToBytesLoop s₁ pos out outPos n = hexStringToBytesLoop s₂ pos out outPos n := by
  intro n
  induction n with
  | zero => intro pos out outPos h; rfl
  | succ k ih =>
    intro pos out outPos h
    have ho := hexOctet_caseVariant (h pos (by omega) (by omega))
      (h (pos + 1) (by omega) (by omega))
    simp only [hexStringToBytesLoop, ho]
    cases hexOctet s₂ pos with
    | none => rfl
    | some b => exact ih (pos + 2) _ _ (fun q hq1 hq2 => h q (by omega) (by omega))

/-- C5: two 36-character inputs that differ only in the letter-case of hex
digits at hex-digit positions parse identically: the same success or failure
outcome and, on success, the same GUID. -/
theorem C5_case_insensitive (s₁ s₂ : List Nat) (_hl1 : s₁.length = 36)
    (_hl2 : s₂.length = 36)
    (h : ∀ i, i < 36 → caseVariantB (s₁.getD i 0) (s₂.getD i 0) = true) :
    parse_guid s₁ 36 = parse_guid s₂ 36 := by
  have e8 := caseVariant_eq45 (h 8 (by omega))
  have e13 := caseVariant_eq45 (h 13 (by omega))
  have e18 := caseVariant_eq45 (h 18 (by omega))
  have e23 := caseVariant_eq45 (h 23 (by omega))
  have n1 : hex_string_to_number s₁ 0 4 0 = hex_string_to_number s₂ 0 4 0 := by
    rw [hex_string_to_number, hex_string_to_number,
      numLoop_caseVariant 4 0 0 (fun q hq1 hq2 => h q (by omega))]
  have n2 : hex_string_to_number s₁ 9 2 0 = hex_string_to_number s₂ 9 2 0 := by
    rw [hex_string_to_number, hex_string_to_number,
      numLoop_caseVariant 2 9 0 (fun q hq1 hq2 => h q (by omega))]
  have n3 : hex_string_to_number s₁ 14 2 0 = hex_string_to_number s₂ 14 2 0 := by
    rw [hex_string_to_number, hex_string_to_number,
      numLoop_caseVariant 2 14 0 (fun q hq1 hq2 => h q (by omega))]
  have b1 : ∀ (out : List Nat) (outPos : Nat),
      hex_string_to_bytes s₁ 19 out outPos 2 = hex_string_to_bytes s₂ 19 out outPos 2 := by
    intro out outPos
    rw [hex_string_to_bytes, hex_string_to_bytes,
      bytesLoop_caseVariant 2 19 out outPos (fun q hq1 hq2 => h q (by omega))]
  have b2 : ∀ (out : List Nat) (outPos : Nat),
      hex_string_to_bytes s₁ 24 out outPos 6 = hex_string_to_bytes s₂ 24 out outPos 6 := by
    intro out outPos
    rw [hex_string_to_bytes, hex_string_to_bytes,
      bytesLoop_caseVariant 6 24 out outPos (fun q hq1 hq2 => h q (by omega))]
  simp only [parse_guid,
    show (STR_POSITION_DATA2 - 1 : Nat) = 8 from rfl,
    show (STR_POSITION_DATA3 - 1 : Nat) = 13 from rfl,
    show (STR_POSITION_DATA4_PART1 - 1 : Nat) = 18 from rfl,
    show (STR_POSITION_DATA4_PART2 - 1 : Nat) = 23 from rfl,
    show (DELIMITER : Nat) = 45 from rfl,
    show (STR_POSITION_DATA1 : Nat) = 0 from rfl,
    show (STR_POSITION_DATA2 : Nat) = 9 from rfl,
    show (STR_POSITION_DATA3 : Nat) = 14 from rfl,
    show (STR_POSITION_DATA4_PART1 : Nat) = 19 from rfl,
    show (STR_POSITION_DATA4_PART2 : Nat) = 24 from rfl,
    show (9 - 1 : Nat) = 8 from rfl, show (14 - 1 : Nat) = 13 from rfl,
    show (19 - 1 : Nat) = 18 from rfl, show (24 - 1 : Nat) = 23 from rfl]
  rw [if_neg (show ¬((36 : Nat) ≠ UUID_STRING_LENGTH) by decide),
    if_neg (show ¬((36 : Nat) ≠ UUID_STRING_LENGTH) by decide)]
  by_cases hhy : (s₁.getD 8 0 ≠ 45 ∨ s₁.getD 13 0 ≠ 45 ∨ s₁.getD 18 0 ≠ 45 ∨
      s₁.getD 23 0 ≠ 45)
  · rw [if_pos hhy, if_pos (show s₂.getD 8 0 ≠ 45 ∨ s₂.getD 13 0 ≠ 45 ∨
        s₂.getD 18 0 ≠ 45 ∨ s₂.getD 23 0 ≠ 45 by
      rcases hhy with hx | hx | hx | hx
      · exact Or.inl (fun hc => hx (e8.mpr hc))
      · exact Or.inr (Or.inl (fun hc => hx (e13.mpr hc)))
      · exact Or.inr (Or.inr (Or.inl (fun hc => hx (e18.mpr hc))))
      · exact Or.inr (Or.inr (Or.inr (fun hc => hx (e23.mpr hc)))))]
  · rw [if_neg hhy, if_neg (show ¬(s₂.getD 8 0 ≠ 45 ∨ s₂.getD 13 0 ≠ 45 ∨
        s₂.getD 18 0 ≠ 45 ∨ s₂.getD 23 0 ≠ 45) by
      push_neg at hhy ⊢
      exact ⟨e8.mp hhy.1, e13.mp hhy.2.1, e18.mp hhy.2.2.1, e23.mp hhy.2.2.2⟩)]
    rw [n1, n2, n3, b1, b2]

theorem C5_case_insensitive_witness :
    parse_guid [49, 50, 51, 52, 53, 54, 55, 56, 45, 57, 97, 98, 99, 45, 68, 69, 70, 48,
      45, 49, 49, 50, 50, 45, 51, 51, 52, 52, 53, 53, 54, 54, 55, 55, 56, 56] 36 =
    parse_guid [49, 50, 51, 52, 53, 54, 55, 56, 45, 57, 65, 66, 67, 45, 100, 101, 102, 48,
      45, 49, 49, 50, 50, 45, 51, 51, 52, 52, 53, 53, 54, 54, 55, 55, 56, 56] 36 :=
  C5_case_insensitive _ _ (by decide) (by decide) (by decide)


/-- C6 counterexample: on input "01ZZ" (codes 48, 49, 90, 90), decoding 2
octets into a buffer holding [7, 7], `hex_string_to_bytes` reports failure
but has already overwritten the first output byte: the buffer is observably
[1, 7], not the original [7, 7], so the failure is not atomic. -/
theorem C6_counterexample :
    (hex_string_to_bytes [48, 49, 90, 90] 0 [7, 7] 0 2).1 = false ∧
    (hex_string_to_bytes [48, 49, 90, 90] 0 [7, 7] 0 2).2 ≠ [7, 7] := by
  decide

/-- C6 amended: when the octet at index j fails, `hex_string_to_bytes`
reports an error (returns false), and the output bytes at positions at or
after the failing octet's slot are unchanged; bytes for octets decoded
before the failure may already have been written into the buffer. -/
theorem C6_amended (str : List Nat) (pos : Nat) (out : List Nat) (outPos : Nat)
    (byte_count j : Nat) (hj : j < byte_count)
    (hfail : hexOctet str (pos + 2 * j) = none) :
    (hex_string_to_bytes str pos out outPos byte_count).1 = false ∧
    (∀ q d, outPos + j ≤ q →
      ((hex_string_to_bytes str pos out outPos byte_count).2).getD q d = out.getD q d) := by
  rw [hex_string_to_bytes]
  exact bytesLoop_false byte_count pos out outPos j hj hfail

theorem C6_amended_witness :
    (hex_string_to_bytes [48, 49, 90, 90] 0 [7, 7] 0 2).1 = false ∧
    (hex_string_to_bytes [48, 49, 90, 90] 0 [7, 7] 0 2).2.getD 1 9 = [7, 7].getD 1 9 :=
  ⟨(C6_amended [48, 49, 90, 90] 0 [7, 7] 0 2 1 (by decide) (by decide)).1,
   (C6_amended [48, 49, 90, 90] 0 [7, 7] 0 2 1 (by decide) (by decide)).2 1 9 (by decide)⟩

/-! Container-id extraction
(src/Microsoft.O365.Security.Native.ETW/EventRecordMetadata.hpp). -/

/-- EVENT_HEADER_EXTENDED_DATA_ITEM: the type tag, the declared byte length
(DataSize) and the payload bytes DataPtr points at. -/
structure EVENT_HEADER_EXTENDED_DATA_ITEM where
  ExtType : Nat
  DataSize : Nat
  DataPtr : List Nat
deriving DecidableEq, Repr

/-- The EVENT_RECORD fields GetContainerId reads: ExtendedDataCount and the
ExtendedData array, modelled as a single list (the loop visits exactly the
items at indexes below the count). -/
structure EVENT_RECORD where
  ExtendedData : List EVENT_HEADER_EXTENDED_DATA_ITEM
deriving DecidableEq, Repr

/-- evntcons.h: EVENT_HEADER_EXT_TYPE_CONTAINER_ID is 0x10. -/
def EVENT_HEADER_EXT_TYPE_CONTAINER_ID : Nat := 16

/-- The managed exception thrown when the platform parser rejects the copied
container-id payload; it carries the offending wide-character text. -/
inductive ContainerIdFormatException where
  | containerIdFormat (buf : List Nat)
deriving DecidableEq, Repr

/-- MSVC widening `(wchar_t)((char)b)` (EventRecordMetadata.hpp line 186):
char is signed, so byte values at or above 0x80 sign-extend into the 16-bit
wchar_t. -/
def signExtendToWide (b : Nat) : Nat :=
  if b % 256 < 128 then b % 256 else b % 256 + 65280

/-- The local buffer of GetContainerId (lines 183-187):
L"{00000000-0000-0000-0000-000000000000}" whose positions 1..36 are
overwritten by the first 36 payload bytes, widened character by character;
123 and 125 are the brace codes.  The trailing NUL terminator, at which the
string ends, is not represented. -/
def guidStringBuffer (dataPtr : List Nat) : List Nat :=
  123 :: ((List.range 36).map fun c => signExtendToWide (dataPtr.getD c 0)) ++ [125]

/-- Modelled from the spec: CLSIDFromString, the platform GUID parser that
GetContainerId invokes (line 191), is not part of the sources.  Spec §4.3
steps 4-5 say the extractor "invokes the Parser (§4.2) on the local buffer"
and propagates its failure; the platform primitive accepts the brace-wrapped
canonical form, so this model checks the braces the local buffer supplies
and delegates the inner 36 characters to `parse_guid`. -/
def CLSIDFromStringModel (buf : List Nat) : Option GUID :=
  if buf.length = 38 ∧ buf.getD 0 0 = 123 ∧ buf.getD 37 0 = 125 then
    match parse_guid ((buf.drop 1).take 36) 36 with
    | .ok g => some g
    | .error _ => none
  else none

/-- The loop of GetContainerId (lines 174-209): scan the tagged items in
order; on the first item tagged as container id, build the local wide buffer
from the payload's first 36 bytes (the DataSize field is consulted only by a
debug-build assert, which release builds compile away) and parse it; a parse
failure throws ContainerIdFormatException; when no item matches, return
null. -/
def GetContainerIdLoop :
    List EVENT_HEADER_EXTENDED_DATA_ITEM → Except ContainerIdFormatException (Option GUID)
  | [] => .ok none
  | item :: rest =>
    if item.ExtType = EVENT_HEADER_EXT_TYPE_CONTAINER_ID then
      match CLSIDFromStringModel (guidStringBuffer item.DataPtr) with
      | some g => .ok (some g)
      | none => .error (.containerIdFormat (guidStringBuffer item.DataPtr))
    else GetContainerIdLoop rest

/-- EventRecordMetadata::GetContainerId (lines 168-213), release
semantics. -/
def GetContainerId (r : EVENT_RECORD) : Except ContainerIdFormatException (Option GUID) :=
  GetContainerIdLoop r.ExtendedData

theorem loop_none_of_no_match : ∀ l : List EVENT_HEADER_EXTENDED_DATA_ITEM,
    (∀ it ∈ l, it.ExtType ≠ EVENT_HEADER_EXT_TYPE_CONTAINER_ID) →
    GetContainerIdLoop l = .ok none := by
  intro l
  induction l with
  | nil => intro h; rfl
  | cons item rest ih =>
    intro h
    rw [GetContainerIdLoop, if_neg (h item (by simp))]
    exact ih fun it hit => h it (by simp [hit])

theorem loop_first_match :
    ∀ (pre : List EVENT_HEADER_EXTENDED_DATA_ITEM)
      (item : EVENT_HEADER_EXTENDED_DATA_ITEM)
      (rest rest' : List EVENT_HEADER_EXTENDED_DATA_ITEM),
    (∀ it ∈ pre, it.ExtType ≠ EVENT_HEADER_EXT_TYPE_CONTAINER_ID) →
    item.ExtType = EVENT_HEADER_EXT_TYPE_CONTAINER_ID →
    GetContainerIdLoop (pre ++ item :: rest) = GetContainerIdLoop (pre ++ item :: rest') := by
  intro pre
  induction pre with
  | nil =>
    intro item rest rest' hpre hitem
    simp only [List.nil_append]
    rw [GetContainerIdLoop, GetContainerIdLoop, if_pos hitem, if_pos hitem]
  | cons x xs ih =>
    intro item rest rest' hpre hitem
    simp only [List.cons_append]
    rw [GetContainerIdLoop, GetContainerIdLoop, if_neg (hpre x (by simp)),
      if_neg (hpre x (by simp))]
    exact ih item rest rest' (fun it hit => hpre it (by simp [hit])) hitem

/-- C8: a record whose tagged items contain none tagged as container id
(including a record with zero items) yields null, not an error; and when a
matching item exists, only the first matching item in scan order is
consulted: the items after it do not affect the result. -/
theorem C8_absence_and_first_match :
    (∀ r : EVENT_RECORD,
      (∀ it ∈ r.ExtendedData, it.ExtType ≠ EVENT_HEADER_EXT_TYPE_CONTAINER_ID) →
      GetContainerId r = .ok none) ∧
    (∀ (pre : List EVENT_HEADER_EXTENDED_DATA_ITEM)
      (item : EVENT_HEADER_EXTENDED_DATA_ITEM)
      (rest rest' : List EVENT_HEADER_EXTENDED_DATA_ITEM),
      (∀ it ∈ pre, it.ExtType ≠ EVENT_HEADER_EXT_TYPE_CONTAINER_ID) →
      item.ExtType = EVENT_HEADER_EXT_TYPE_CONTAINER_ID →
      GetContainerId ⟨pre ++ item :: rest⟩ = GetContainerId ⟨pre ++ item :: rest'⟩) :=
  ⟨fun r hr => loop_none_of_no_match r.ExtendedData hr,
   fun pre item rest rest' hpre hitem =>
     loop_first_match pre item rest rest' hpre hitem⟩

theorem C8_absence_and_first_match_witness :
    GetContainerId ⟨[⟨2, 4, [1, 2, 3, 4]⟩]⟩ = .ok none ∧
    GetContainerId ⟨[⟨2, 4, [1, 2, 3, 4]⟩] ++ ⟨16, 36, []⟩ :: []⟩ =
      GetContainerId ⟨[⟨2, 4, [1, 2, 3, 4]⟩] ++ ⟨16, 36, []⟩ :: [⟨16, 36, [48]⟩]⟩ :=
  ⟨C8_absence_and_first_match.1 ⟨[⟨2, 4, [1, 2, 3, 4]⟩]⟩ (by decide),
   C8_absence_and_first_match.2 [⟨2, 4, [1, 2, 3, 4]⟩] ⟨16, 36, []⟩ [] [⟨16, 36, [48]⟩]
     (by decide) (by decide)⟩

/-- C9 counterexample: a container-id tagged item whose declared DataSize is
0 (a length mismatch: the expected constant is 36) is not rejected with a
length error; the extractor copies the payload's first 36 bytes anyway and
returns the parsed GUID.  (The DataSize check in the source is only a
debug-build assert, and the extractor has no length-error outcome at all.) -/
theorem C9_counterexample :
    GetContainerId ⟨[⟨16, 0,
      [48, 48, 48, 48, 48, 48, 48, 48, 45, 48, 48, 48, 48, 45, 48, 48, 48, 48, 45,
       48, 48, 48, 48, 45, 48, 48, 48, 48, 48, 48, 48, 48, 48, 48, 48, 49]⟩]⟩ =
      .ok (some ⟨0, 0, 0, [0, 0, 0, 0, 0, 0, 0, 1]⟩) := by
  decide

/-- C9 amended: the extractor validates the declared length only through a
debug-build assert; in release builds the outcome is computed from the first
36 bytes of the payload regardless of the declared DataSize, and a length
mismatch is not reported as an error. -/
theorem C9_amended :
    (∀ (l : List EVENT_HEADER_EXTENDED_DATA_ITEM) (d : Nat),
      GetContainerIdLoop (l.map fun it => ⟨it.ExtType, d, it.DataPtr⟩) =
        GetContainerIdLoop l) ∧
    (∀ dataPtr : List Nat, guidStringBuffer dataPtr = guidStringBuffer (dataPtr.take 36)) := by
  constructor
  · intro l d
    induction l with
    | nil => rfl
    | cons item rest ih =>
      simp only [List.map_cons]
      rw [GetContainerIdLoop, GetContainerIdLoop]
      by_cases hit : item.ExtType = EVENT_HEADER_EXT_TYPE_CONTAINER_ID
      · rw [if_pos hit, if_pos hit]
      · rw [if_neg hit, if_neg hit]
        exact ih
  · intro dataPtr
    rw [guidStringBuffer, guidStringBuffer]
    refine congrArg _ (congrArg (· ++ [125]) (List.map_congr_left fun c hc => ?_))
    have hc36 : c < 36 := List.mem_range.mp hc
    simp only [List.getD_eq_getElem?_getD, List.getElem?_take_of_lt hc36]

end Krabs
